import Mathlib

/-
Verification of the stakedex-sdk quote-computation core.

Shallow embedding conventions:
- `u64` values are embedded as `Nat`; Rust `saturating_sub` is `Nat`
  truncated subtraction; `checked_sub` is embedded explicitly below.
- Rust `Result<T>` with `anyhow` string errors is `Except String T`,
  keeping the exact error message strings of the source.
- On-chain addresses (`Pubkey`) are embedded as `Nat`; the fixed program
  addresses are distinct concrete naturals.
- External deserializers (borsh `try_from_slice_unchecked`, bincode) are
  passed as explicit function parameters of type `List Nat → Option _`.
-/

/-- Embedding of `solana_sdk::pubkey::Pubkey`: an abstract on-chain address.
`Pubkey::default()` is embedded as `0`. -/
abbrev Pubkey := Nat

/-- Modelled from the spec: the dependency-injected rent constants
`STAKE_ACCOUNT_RENT_EXEMPT_LAMPORTS` and `ZERO_DATA_ACC_RENT_EXEMPT_LAMPORTS`
of `stakedex_sdk_common` (declared outside the shown sources; spec section 6
requires them to be supplied rather than hardcoded). -/
structure RentConsts where
  stake_account_rent_exempt_lamports : Nat
  zero_data_acc_rent_exempt_lamports : Nat
deriving DecidableEq

/-- Modelled from the spec: `unstake_lib::PoolBalance`, the minimal
sufficient statistic for fee computation (spec section 3). -/
structure PoolBalance where
  pool_incoming_stake : Nat
  sol_reserves_lamports : Nat
deriving DecidableEq

/-- Modelled from the spec: `unstake_interface::FeeEnum`, the polymorphic
fee schedule (spec section 4.1). Only the flat-rate variant has a fully
specified forward/reverse formula ("for curves linear in `gross_amount`
use closed-form division"); spec section 9 states the inversion algorithm
for non-linear curves is unspecified and must not be guessed, so only the
flat variant is modelled. `flat n d` is the rational fee ratio `n / d`. -/
inductive FeeEnum where
  | flat (num den : Nat)
deriving DecidableEq

/-- Modelled from the spec: `unstake_lib::ReverseFeeArgs`. -/
structure ReverseFeeArgs where
  pool_balance : PoolBalance
  lamports_after_fee : Nat
deriving DecidableEq

/-- Modelled from the spec: the forward fee function
`apply(pool_balance, gross_amount) -> fee_amount` (spec section 4.1):
deterministic, saturating (never exceeds the gross amount), `none` when the
fee computation is undefined for the current state (here: a zero
denominator). The flat-rate fee is `floor(gross * num / den)`, matching the
spec example `flat 0.3%`, `gross = 10_000_000` gives `fee = 30_000`. -/
def FeeEnum.apply (fee : FeeEnum) (_balance : PoolBalance) (gross : Nat) : Option Nat :=
  match fee with
  | .flat num den =>
    if den = 0 then none
    else some (min gross (gross * num / den))

/-- Modelled from the spec: `pseudo_reverse(pool_balance, lamports_after_fee)`
solves `gross - apply(balance, gross) = lamports_after_fee` for `gross`
(spec section 4.1), by closed-form division for the flat (linear) curve,
rounding the gross amount up so the net payout is never underestimated;
`none` (MathError) when the fee ratio is not invertible (ratio at or above
one, or an undefined ratio). -/
def FeeEnum.pseudo_reverse (fee : FeeEnum) (args : ReverseFeeArgs) : Option Nat :=
  match fee with
  | .flat num den =>
    if num < den then
      some ((args.lamports_after_fee * den + (den - num - 1)) / (den - num))
    else none

/-- Modelled from the spec: the `apply_fee` helper of
`libs/unstake_it/src/lib.rs` (outside the shown sources), which packages its
arguments into a `PoolBalance` and delegates to the fee schedule's forward
function. -/
def apply_fee (fee : FeeEnum) (pool_incoming_stake sol_reserves_lamports
    stake_account_lamports : Nat) : Option Nat :=
  fee.apply ⟨pool_incoming_stake, sol_reserves_lamports⟩ stake_account_lamports

/-- Embedding of `PREFUND_FLASH_LOAN_LAMPORTS` from
`jup_interface/src/pool_pair/prefund.rs`: twice one stake account's
rent-exempt minimum. -/
def PREFUND_FLASH_LOAN_LAMPORTS (c : RentConsts) : Nat :=
  2 * c.stake_account_rent_exempt_lamports

/-- Embedding of `PrefundRepayParams` from
`jup_interface/src/pool_pair/prefund.rs`. -/
structure PrefundRepayParams where
  fee : FeeEnum
  incoming_stake : Nat
  sol_reserves_lamports : Nat
  protocol_fee_dest : Pubkey
deriving DecidableEq

/-- The exact `anyhow` error message of the liquidity check in
`slumdog_target_lamports`. -/
def liqErrMsg : String := "Not enough liquidity for slumdog instant unstake"

/-- The exact `anyhow` error message of the failed fee inversion in
`slumdog_target_lamports`. -/
def mathErrMsg : String := "pseudo_reverse() MathError"

/-- Embedding of `PrefundRepayParams::slumdog_target_lamports` from
`jup_interface/src/pool_pair/prefund.rs`: the total lamports the slumdog
stake account must hold so that instant unstaking it repays the prefund
flash loan. -/
def PrefundRepayParams.slumdog_target_lamports (c : RentConsts)
    (p : PrefundRepayParams) : Except String Nat :=
  let lamports_required := PREFUND_FLASH_LOAN_LAMPORTS c
  if p.sol_reserves_lamports < lamports_required + c.zero_data_acc_rent_exempt_lamports then
    .error liqErrMsg
  else
    match p.fee.pseudo_reverse ⟨⟨p.incoming_stake, p.sol_reserves_lamports⟩,
        lamports_required⟩ with
    | some gross => .ok gross
    | none => .error mathErrMsg

/-- Embedding of `PrefundRepayParams::prefund_split_lamports` from
`jup_interface/src/pool_pair/prefund.rs`: `saturating_sub` is `Nat`
truncated subtraction. -/
def PrefundRepayParams.prefund_split_lamports (c : RentConsts)
    (p : PrefundRepayParams) : Except String Nat :=
  match p.slumdog_target_lamports c with
  | .error e => .error e
  | .ok slumdog_target => .ok (slumdog_target - c.stake_account_rent_exempt_lamports)

/-- Modelled from the spec: `WithdrawStakeQuote` of `stakedex_sdk_common`
(spec section 3). -/
structure WithdrawStakeQuote where
  lamports_out : Nat
  lamports_staked : Nat
  fee_amount : Nat
  voter : Pubkey
deriving DecidableEq

/-- Modelled from the spec: `DepositStakeQuote` of `stakedex_sdk_common`
(spec section 3). -/
structure DepositStakeQuote where
  tokens_out : Nat
  fee_amount : Nat
  voter : Pubkey
deriving DecidableEq

/-- The `DepositStakeQuote::default()` sentinel: all fields zero. -/
def DepositStakeQuote.default : DepositStakeQuote :=
  { tokens_out := 0, fee_amount := 0, voter := 0 }

/-- Modelled from the spec: `unstake_interface::Fee`, a wrapper holding the
fee schedule. -/
structure Fee where
  fee : FeeEnum
deriving DecidableEq

/-- Modelled from the spec: the `incoming_stake` field of
`unstake_interface::Pool` (the only field the deposit quote engine reads). -/
structure Pool where
  incoming_stake : Nat
deriving DecidableEq

/-- Embedding of the fields of `UnstakeItStakedex` read by
`get_deposit_stake_quote_unchecked` (the struct itself is declared in
`libs/unstake_it/src/lib.rs`, outside the shown sources; field shapes from
its uses in `deposit_stake.rs`). -/
structure UnstakeItStakedex where
  fee : Fee
  pool : Pool
  sol_reserves_lamports : Nat
deriving DecidableEq

/-- Embedding of `UnstakeItStakedex::get_deposit_stake_quote_unchecked` from
`libs/unstake_it/src/stakedex_traits/deposit_stake.rs`: `saturating_sub` is
`Nat` truncated subtraction, `u64::cmp` is `compare` on `Nat`. -/
def get_deposit_stake_quote_unchecked (c : RentConsts) (s : UnstakeItStakedex)
    (withdraw_stake_quote : WithdrawStakeQuote) : DepositStakeQuote :=
  match apply_fee s.fee.fee s.pool.incoming_stake s.sol_reserves_lamports
      withdraw_stake_quote.lamports_out with
  | none => DepositStakeQuote.default
  | some fee_amount =>
    let tokens_out := withdraw_stake_quote.lamports_out - fee_amount
    match compare tokens_out s.sol_reserves_lamports with
    | .gt => DepositStakeQuote.default
    | .lt =>
      if s.sol_reserves_lamports - tokens_out < c.zero_data_acc_rent_exempt_lamports then
        DepositStakeQuote.default
      else
        { tokens_out := tokens_out, fee_amount := fee_amount,
          voter := withdraw_stake_quote.voter }
    | .eq =>
      { tokens_out := tokens_out, fee_amount := fee_amount,
        voter := withdraw_stake_quote.voter }

/-- Modelled from the spec: `spl_stake_pool::state::StakeStatus`
(spec section 3: `status: Active|other`; only `Active` entries are eligible). -/
inductive StakeStatus where
  | active
  | other
deriving DecidableEq

/-- Modelled from the spec: the fields of
`spl_stake_pool::state::ValidatorStakeInfo` read by the withdraw quote
engine (spec section 3, `ValidatorEntry`). -/
structure ValidatorStakeInfo where
  active_stake_lamports : Nat
  vote_account_address : Pubkey
  status : StakeStatus
deriving DecidableEq

/-- Modelled from the spec: `spl_stake_pool::state::ValidatorList`,
a list of validator entries. -/
structure ValidatorList where
  validators : List ValidatorStakeInfo
deriving DecidableEq

/-- Modelled from the spec: the fields of `spl_stake_pool::state::StakePool`
read by the embedded functions (`last_update_epoch` for the staleness check,
`validator_list` for the tracked validator-list address). -/
structure StakePool where
  last_update_epoch : Nat
  validator_list : Pubkey
deriving DecidableEq

/-- Embedding of the fields of `SplStakePoolStakedex` from
`libs/spl_stake_pool/src/lib.rs` read by the embedded functions
(label and authority metadata omitted). -/
structure SplStakePoolStakedex where
  stake_pool_addr : Pubkey
  stake_pool : StakePool
  validator_list : ValidatorList
  curr_epoch : Nat
deriving DecidableEq

/-- Embedding of `SplStakePoolStakedex::is_updated_this_epoch` from
`libs/spl_stake_pool/src/lib.rs`. -/
def SplStakePoolStakedex.is_updated_this_epoch (s : SplStakePoolStakedex) : Bool :=
  decide (s.stake_pool.last_update_epoch ≥ s.curr_epoch)

/-- Modelled from the spec: the constructors of
`spl_stake_pool::error::StakePoolError` used by the withdraw quote engine
(spec section 7 taxonomy: `InvalidValidatorState` is `InvalidState` here,
`MathError` is `CalculationFailure`). -/
inductive StakePoolError where
  | invalidState
  | calculationFailure
  | withdrawalTooSmall
deriving DecidableEq

/-- Embedding of Rust `u64::checked_sub`. -/
def checked_sub (a b : Nat) : Option Nat :=
  if b ≤ a then some (a - b) else none

/-- Embedding of `SplStakePoolStakedex::get_quote_for_validator_copied` from
`libs/spl_stake_pool/src/lib.rs`. The two exchange-rate helpers
`StakePool::calc_pool_tokens_stake_withdrawal_fee` and
`StakePool::calc_lamports_withdraw_amount` are methods of the external
`spl_stake_pool` crate and are passed as explicit function parameters.
The result is `none` exactly when the `.unwrap()` on the validator-list
lookup aborts (index out of bounds); every in-bounds outcome, error or
quote, is `some`. -/
def get_quote_for_validator_copied
    (calc_pool_tokens_stake_withdrawal_fee : Nat → Option Nat)
    (calc_lamports_withdraw_amount : Nat → Option Nat)
    (c : RentConsts) (s : SplStakePoolStakedex)
    (validator_index : Nat) (withdraw_amount : Nat) :
    Option (Except StakePoolError WithdrawStakeQuote) :=
  match s.validator_list.validators.get? validator_index with
  | none => none
  | some validator_list_entry =>
    some (
      if validator_list_entry.status ≠ StakeStatus.active then
        .error .invalidState
      else
        let pool_tokens := withdraw_amount
        match calc_pool_tokens_stake_withdrawal_fee pool_tokens with
        | none => .error .calculationFailure
        | some pool_tokens_fee =>
          match checked_sub pool_tokens pool_tokens_fee with
          | none => .error .calculationFailure
          | some pool_tokens_burnt =>
            match calc_lamports_withdraw_amount pool_tokens_burnt with
            | none => .error .calculationFailure
            | some withdraw_lamports =>
              if withdraw_lamports = 0 then .error .withdrawalTooSmall
              else if validator_list_entry.active_stake_lamports < withdraw_lamports then
                .error .invalidState
              else
                match checked_sub withdraw_lamports c.stake_account_rent_exempt_lamports with
                | none => .error .calculationFailure
                | some lamports_staked =>
                  .ok { lamports_out := withdraw_lamports,
                        lamports_staked := lamports_staked,
                        fee_amount := pool_tokens_fee,
                        voter := validator_list_entry.vote_account_address })

/-- Modelled from the spec: `solana_sdk::account::Account`, raw account
bytes plus a lamport balance (spec section 6, input interface). -/
structure Account where
  lamports : Nat
  data : List Nat
deriving DecidableEq

/-- Embedding of `jupiter_amm_interface::AccountMap`: a partial map from
address to fetched account. -/
def AccountMap := Pubkey → Option Account

/-- Modelled from the spec: the `epoch` field of the `Clock` sysvar. -/
structure Clock where
  epoch : Nat
deriving DecidableEq

/-- The fixed address `socean_stake_pool::ID` (an abstract distinct
constant). -/
def socean_stake_pool_ID : Pubkey := 101

/-- The fixed address `sysvar::clock::ID` (an abstract distinct constant). -/
def sysvar_clock_ID : Pubkey := 102

/-- Embedding of the refresh error taxonomy: `account_missing_err(key)` from
`stakedex_sdk_common`, and a deserialization failure. -/
inductive UpdateError where
  | accountMissing (key : Pubkey)
  | deserializeError
deriving DecidableEq

/-- Embedding of the fields of `SoceanStakePoolStakedex` read by its
`BaseStakePoolAmm::update` (the struct itself is declared in
`libs/socean_stake_pool/src/lib.rs`, outside the shown sources; field
shapes from their uses in `base.rs`). -/
structure SoceanStakePoolStakedex where
  stake_pool : StakePool
  validator_list : ValidatorList
  curr_epoch : Nat
deriving DecidableEq

/-- Embedding of `SoceanStakePoolStakedex::update` from
`libs/socean_stake_pool/src/stakedex_traits/base.rs` as explicit state
passing: the result pairs the adapter state after the call with the
returned `Result`. The three external deserializers (borsh for the stake
pool and the validator list, bincode for `Clock`) are explicit function
parameters. Mirroring the source, `update_stake_pool` assigns
`self.stake_pool` as soon as the main account's bytes parse, before the
validator list is looked up. -/
def SoceanStakePoolStakedex.update
    (dStakePool : List Nat → Option StakePool)
    (dValidatorList : List Nat → Option ValidatorList)
    (dClock : List Nat → Option Clock)
    (s : SoceanStakePoolStakedex) (accounts_map : AccountMap) :
    SoceanStakePoolStakedex × Except UpdateError Unit :=
  match accounts_map socean_stake_pool_ID with
  | none => (s, .error (.accountMissing socean_stake_pool_ID))
  | some acc =>
    match dStakePool acc.data with
    | none => (s, .error .deserializeError)
    | some sp =>
      let s1 : SoceanStakePoolStakedex := { s with stake_pool := sp }
      match accounts_map s1.stake_pool.validator_list with
      | none => (s1, .error (.accountMissing s1.stake_pool.validator_list))
      | some vacc =>
        match dValidatorList vacc.data with
        | none => (s1, .error .deserializeError)
        | some vl =>
          let s2 : SoceanStakePoolStakedex := { s1 with validator_list := vl }
          match accounts_map sysvar_clock_ID with
          | none => (s2, .error (.accountMissing sysvar_clock_ID))
          | some cacc =>
            match dClock cacc.data with
            | none => (s2, .error .deserializeError)
            | some clock => ({ s2 with curr_epoch := clock.epoch }, .ok ())

/-- Ceiling-division property: `(x + (y-1)) / y * y` is at least `x`. -/
lemma ceil_div_mul_ge (x y : Nat) (hy : 0 < y) : x ≤ (x + (y - 1)) / y * y := by
  have hmod : (x + (y - 1)) % y < y := Nat.mod_lt _ hy
  have hdm : y * ((x + (y - 1)) / y) + (x + (y - 1)) % y = x + (y - 1) :=
    Nat.div_add_mod (x + (y - 1)) y
  have hcomm : (x + (y - 1)) / y * y = y * ((x + (y - 1)) / y) := Nat.mul_comm _ _
  omega

/-- Strict upper bound complementing floor division:
`a < (a / b + 1) * b` for positive `b`. -/
lemma lt_floor_succ_mul (a b : Nat) (hb : 0 < b) : a < (a / b + 1) * b := by
  have hmod : a % b < b := Nat.mod_lt _ hb
  have hdm : b * (a / b) + a % b = a := Nat.div_add_mod a b
  have hexp : (a / b + 1) * b = b * (a / b) + b := by ring
  omega

/-- Lower bound of the flat-fee round trip: the floor fee taken out of the
ceiling gross still leaves at least the target net amount. -/
lemma flat_round_trip_lower (n d net : Nat) (hn : n < d) :
    net + ((net * d + (d - n - 1)) / (d - n)) * n / d ≤
      (net * d + (d - n - 1)) / (d - n) := by
  have hd : 0 < d := Nat.lt_of_le_of_lt (Nat.zero_le n) hn
  have hy : 0 < d - n := by omega
  set g := (net * d + (d - n - 1)) / (d - n) with hg
  have hceil : net * d ≤ g * (d - n) := by
    rw [hg]
    exact ceil_div_mul_ge (net * d) (d - n) hy
  have hfl : g * n / d * d ≤ g * n := Nat.div_mul_le_self _ _
  have hsum : g * (d - n) + g * n = g * d := by
    rw [← Nat.mul_add]
    congr 1
    omega
  have key : (net + g * n / d) * d ≤ g * d := by
    have expand : (net + g * n / d) * d = net * d + g * n / d * d := Nat.add_mul _ _ _
    omega
  exact Nat.le_of_mul_le_mul_right key hd

/-- Upper bound of the flat-fee round trip: the net amount left after the
floor fee exceeds the target by at most one lamport. -/
lemma flat_round_trip_upper (n d net : Nat) (hn : n < d) :
    (net * d + (d - n - 1)) / (d - n) ≤ net + 1 + ((net * d + (d - n - 1)) / (d - n)) * n / d := by
  have hd : 0 < d := Nat.lt_of_le_of_lt (Nat.zero_le n) hn
  have hy : 0 < d - n := by omega
  set g := (net * d + (d - n - 1)) / (d - n) with hg
  set fl := g * n / d with hfl
  have h1 : g * (d - n) ≤ net * d + (d - n - 1) := Nat.div_mul_le_self _ _
  have h2 : g * n < (fl + 1) * d := lt_floor_succ_mul (g * n) d hd
  have h2' : g * n < fl * d + d := by
    have : (fl + 1) * d = fl * d + d := Nat.succ_mul _ _
    omega
  have hsum : g * (d - n) + g * n = g * d := by
    rw [← Nat.mul_add]
    congr 1
    omega
  have hgd : g * d < net * d + fl * d + 2 * d := by omega
  have hmul : g * d < (net + 1 + fl + 1) * d := by
    have : (net + 1 + fl + 1) * d = net * d + fl * d + 2 * d := by ring
    omega
  have := Nat.lt_of_mul_lt_mul_right hmul
  omega

/-- Core round-trip bounds: whenever the reverse fee inversion succeeds and
the forward fee is defined at the resulting gross amount, the net payout
`gross - fee` is at least the target and overshoots it by at most one. -/
lemma pseudo_reverse_net_bounds (fee : FeeEnum) (b : PoolBalance)
    (net gross f : Nat)
    (hrev : fee.pseudo_reverse ⟨b, net⟩ = some gross)
    (happ : fee.apply b gross = some f) :
    net ≤ gross - f ∧ gross - f ≤ net + 1 := by
  cases fee with
  | flat n d =>
    simp only [FeeEnum.pseudo_reverse] at hrev
    by_cases hn : n < d
    · simp only [if_pos hn, Option.some.injEq] at hrev
      have hd : d ≠ 0 := by omega
      simp only [FeeEnum.apply, if_neg hd, Option.some.injEq] at happ
      have hdpos : 0 < d := by omega
      have hle : gross * n / d ≤ gross := by
        have h1 : gross * n ≤ gross * d := Nat.mul_le_mul_left _ (Nat.le_of_lt hn)
        have h2 : gross * n / d ≤ gross * d / d := Nat.div_le_div_right h1
        have h3 : gross * d / d = gross := Nat.mul_div_cancel gross hdpos
        omega
      have hf : f = gross * n / d := by
        rw [← happ, min_eq_right hle]
      subst hrev
      have hlo := flat_round_trip_lower n d net hn
      have hhi := flat_round_trip_upper n d net hn
      omega
    · simp [if_neg hn] at hrev

/-- The reverse fee inversion does not depend on the pool balance for any
modelled fee variant. -/
lemma pseudo_reverse_balance_irrel (fee : FeeEnum) (b1 b2 : PoolBalance)
    (net : Nat) :
    fee.pseudo_reverse ⟨b1, net⟩ = fee.pseudo_reverse ⟨b2, net⟩ := by
  cases fee with
  | flat n d => rfl

/-- A successful `slumdog_target_lamports` means the liquidity check passed
and the returned gross is the successful fee inversion at the flash-loan
amount. -/
lemma slumdog_ok_elim (c : RentConsts) (p : PrefundRepayParams) (gross : Nat)
    (hok : p.slumdog_target_lamports c = .ok gross) :
    PREFUND_FLASH_LOAN_LAMPORTS c + c.zero_data_acc_rent_exempt_lamports ≤
        p.sol_reserves_lamports ∧
    p.fee.pseudo_reverse ⟨⟨p.incoming_stake, p.sol_reserves_lamports⟩,
        PREFUND_FLASH_LOAN_LAMPORTS c⟩ = some gross := by
  unfold PrefundRepayParams.slumdog_target_lamports at hok
  by_cases hliq : p.sol_reserves_lamports <
      PREFUND_FLASH_LOAN_LAMPORTS c + c.zero_data_acc_rent_exempt_lamports
  · simp [hliq] at hok
  · refine ⟨by omega, ?_⟩
    simp only [if_neg hliq] at hok
    rcases hrev : p.fee.pseudo_reverse ⟨⟨p.incoming_stake, p.sol_reserves_lamports⟩,
        PREFUND_FLASH_LOAN_LAMPORTS c⟩ with _ | g
    · rw [hrev] at hok
      simp at hok
    · rw [hrev] at hok
      simp only [Except.ok.injEq] at hok
      rw [hok]

/-- C1. Round-trip of the fee model: whenever `pseudo_reverse(balance, net)`
succeeds with `gross` and the forward fee is defined at `gross`, the net
payout `gross - apply(balance, gross)` equals `net` within one lamport and
is never below `net`; in particular a gross amount returned by
`slumdog_target_lamports` nets at least the flash-loan amount after the
instant-unstake fee. -/
theorem fee_round_trip_never_underestimates :
    (∀ (fee : FeeEnum) (b : PoolBalance) (net gross f : Nat),
        fee.pseudo_reverse ⟨b, net⟩ = some gross →
        fee.apply b gross = some f →
        net ≤ gross - f ∧ gross - f ≤ net + 1) ∧
    (∀ (c : RentConsts) (p : PrefundRepayParams) (gross f : Nat),
        p.slumdog_target_lamports c = .ok gross →
        p.fee.apply ⟨p.incoming_stake, p.sol_reserves_lamports⟩ gross = some f →
        PREFUND_FLASH_LOAN_LAMPORTS c ≤ gross - f) := by
  constructor
  · intro fee b net gross f hrev happ
    exact pseudo_reverse_net_bounds fee b net gross f hrev happ
  · intro c p gross f hok happ
    have hrev := (slumdog_ok_elim c p gross hok).2
    exact (pseudo_reverse_net_bounds p.fee _ _ gross f hrev happ).1

/-- Witness for C1 at a concrete flat 50% fee and target net of 100:
the inversion returns a gross of 200, the forward fee at 200 is 100, and
the round-trip bounds hold there. -/
theorem fee_round_trip_never_underestimates_witness :
    (FeeEnum.flat 1 2).pseudo_reverse ⟨⟨0, 0⟩, 100⟩ = some 200 ∧
    (FeeEnum.flat 1 2).apply ⟨0, 0⟩ 200 = some 100 ∧
    (100 ≤ 200 - 100 ∧ 200 - 100 ≤ 100 + 1) :=
  ⟨by decide, by decide,
    fee_round_trip_never_underestimates.1 (.flat 1 2) ⟨0, 0⟩ 100 200 100
      (by decide) (by decide)⟩

/-- C3. The liquidity precondition of `slumdog_target_lamports` with its
exact boundary: the insufficient-liquidity error is returned exactly when
`sol_reserves_lamports` is strictly below
`PREFUND_FLASH_LOAN_LAMPORTS + zero_data_acc_rent_exempt_lamports` (so the
boundary value passes and one lamport less fails), and on the passing path
the only remaining failure is the `pseudo_reverse` MathError. -/
theorem slumdog_insufficient_liquidity_boundary :
    ∀ (c : RentConsts) (p : PrefundRepayParams),
      (p.slumdog_target_lamports c = .error liqErrMsg ↔
        p.sol_reserves_lamports <
          PREFUND_FLASH_LOAN_LAMPORTS c + c.zero_data_acc_rent_exempt_lamports) ∧
      (PREFUND_FLASH_LOAN_LAMPORTS c + c.zero_data_acc_rent_exempt_lamports ≤
          p.sol_reserves_lamports →
        p.slumdog_target_lamports c = .error mathErrMsg ∨
          ∃ gross, p.slumdog_target_lamports c = .ok gross) := by
  intro c p
  by_cases hliq : p.sol_reserves_lamports <
      PREFUND_FLASH_LOAN_LAMPORTS c + c.zero_data_acc_rent_exempt_lamports
  · constructor
    · constructor
      · intro _
        exact hliq
      · intro _
        unfold PrefundRepayParams.slumdog_target_lamports
        simp [hliq]
    · intro h
      omega
  · have hmsg : liqErrMsg ≠ mathErrMsg := by decide
    constructor
    · constructor
      · intro h
        unfold PrefundRepayParams.slumdog_target_lamports at h
        simp only [if_neg hliq] at h
        rcases hrev : p.fee.pseudo_reverse ⟨⟨p.incoming_stake, p.sol_reserves_lamports⟩,
            PREFUND_FLASH_LOAN_LAMPORTS c⟩ with _ | g
        · rw [hrev] at h
          simp only [Except.error.injEq] at h
          exact absurd h.symm hmsg
        · rw [hrev] at h
          simp at h
      · intro h
        exact absurd h hliq
    · intro _
      unfold PrefundRepayParams.slumdog_target_lamports
      simp only [if_neg hliq]
      rcases hrev : p.fee.pseudo_reverse ⟨⟨p.incoming_stake, p.sol_reserves_lamports⟩,
          PREFUND_FLASH_LOAN_LAMPORTS c⟩ with _ | g
      · left
        rfl
      · right
        exact ⟨g, rfl⟩

/-- Witness for C3: with rent constants 100 and 10 the liquidity bound is
210; reserves of 209 fail with the insufficient-liquidity error and
reserves of exactly 210 succeed. -/
theorem slumdog_insufficient_liquidity_boundary_witness :
    PrefundRepayParams.slumdog_target_lamports ⟨100, 10⟩
        ⟨.flat 1 2, 0, 209, 0⟩ = .error liqErrMsg ∧
    PrefundRepayParams.slumdog_target_lamports ⟨100, 10⟩
        ⟨.flat 1 2, 0, 210, 0⟩ = .ok 400 :=
  ⟨(slumdog_insufficient_liquidity_boundary ⟨100, 10⟩ ⟨.flat 1 2, 0, 209, 0⟩).1.mpr
      (by decide),
    rfl⟩

/-- C6. `prefund_split_lamports` equals `slumdog_target_lamports` minus one
stake-account rent-exempt minimum with the subtraction saturating at zero
(`Nat` truncated subtraction), errors propagating unchanged; the function
is total, so it never underflows or aborts. -/
theorem prefund_split_is_saturating_sub_of_slumdog :
    ∀ (c : RentConsts) (p : PrefundRepayParams),
      p.prefund_split_lamports c =
        (p.slumdog_target_lamports c).map
          (fun slumdog_target => slumdog_target - c.stake_account_rent_exempt_lamports) := by
  intro c p
  unfold PrefundRepayParams.prefund_split_lamports
  rcases p.slumdog_target_lamports c with e | v
  · rfl
  · rfl

/-- C7. `slumdog_target_lamports` is monotone in the pool's incoming stake:
two parameter states agreeing on the fee schedule and the reserves, with
the first's incoming stake at most the second's, give results in the same
order whenever both succeed. -/
theorem slumdog_monotone_in_incoming_stake :
    ∀ (c : RentConsts) (p1 p2 : PrefundRepayParams),
      p1.fee = p2.fee →
      p1.sol_reserves_lamports = p2.sol_reserves_lamports →
      p1.incoming_stake ≤ p2.incoming_stake →
      ∀ g1 g2, p1.slumdog_target_lamports c = .ok g1 →
        p2.slumdog_target_lamports c = .ok g2 → g1 ≤ g2 := by
  intro c p1 p2 hfee hsol _ g1 g2 h1 h2
  have hrev1 := (slumdog_ok_elim c p1 g1 h1).2
  have hrev2 := (slumdog_ok_elim c p2 g2 h2).2
  rw [hfee, hsol] at hrev1
  rw [pseudo_reverse_balance_irrel p2.fee
      ⟨p1.incoming_stake, p2.sol_reserves_lamports⟩
      ⟨p2.incoming_stake, p2.sol_reserves_lamports⟩
      (PREFUND_FLASH_LOAN_LAMPORTS c)] at hrev1
  rw [hrev1] at hrev2
  simp only [Option.some.injEq] at hrev2
  omega

/-- Witness for C7: two states differing only in incoming stake (5 versus 7)
both produce a slumdog target of 400, so the ordering holds. -/
theorem slumdog_monotone_in_incoming_stake_witness :
    PrefundRepayParams.slumdog_target_lamports ⟨100, 10⟩
        ⟨.flat 1 2, 5, 1000, 0⟩ = .ok 400 ∧
    PrefundRepayParams.slumdog_target_lamports ⟨100, 10⟩
        ⟨.flat 1 2, 7, 1000, 0⟩ = .ok 400 ∧
    400 ≤ 400 :=
  ⟨rfl, rfl,
    slumdog_monotone_in_incoming_stake ⟨100, 10⟩ ⟨.flat 1 2, 5, 1000, 0⟩
      ⟨.flat 1 2, 7, 1000, 0⟩ rfl rfl (by decide) 400 400 rfl rfl⟩

/-- C8. The staleness check `is_updated_this_epoch` returns `true` exactly
when the stake pool's `last_update_epoch` is at least the adapter's current
epoch. -/
theorem is_updated_this_epoch_iff :
    ∀ s : SplStakePoolStakedex,
      s.is_updated_this_epoch = true ↔
        s.stake_pool.last_update_epoch ≥ s.curr_epoch := by
  intro s
  simp [SplStakePoolStakedex.is_updated_this_epoch]

/-- Counterexample to C2: an account map in which the main stake pool
account is present and parses (to a state whose `last_update_epoch` is 7
and whose validator-list address, 55, is absent from the map) makes
`update` return the missing-account error while the adapter's `stake_pool`
field has already been overwritten — the prior state is not retained
untouched on this error path. -/
theorem socean_update_mutates_on_error_cx :
    (SoceanStakePoolStakedex.update
        (fun bs => if bs = [1] then some ⟨7, 55⟩ else none)
        (fun _ => none) (fun _ => none)
        ⟨⟨0, 55⟩, ⟨[]⟩, 0⟩
        (fun k => if k = socean_stake_pool_ID then some ⟨0, [1]⟩ else none)).2 =
      .error (.accountMissing 55) ∧
    (SoceanStakePoolStakedex.update
        (fun bs => if bs = [1] then some ⟨7, 55⟩ else none)
        (fun _ => none) (fun _ => none)
        ⟨⟨0, 55⟩, ⟨[]⟩, 0⟩
        (fun k => if k = socean_stake_pool_ID then some ⟨0, [1]⟩ else none)).1.stake_pool.last_update_epoch = 7 ∧
    (⟨⟨0, 55⟩, ⟨[]⟩, 0⟩ : SoceanStakePoolStakedex).stake_pool.last_update_epoch = 0 :=
  ⟨rfl, rfl, rfl⟩

/-- C2 (amended). Adapter refresh retains the prior state untouched when
the failure is on the first tracked account: if the main stake pool
account is missing from the map or its bytes fail to deserialize, `update`
returns an error and the adapter state is exactly the prior state. (On
failures of later tracked accounts the error still propagates, but fields
ingested earlier in the same call — such as `stake_pool` — may already have
been overwritten, as the counterexample shows.) -/
theorem socean_update_untouched_on_main_account_failure :
    ∀ (dStakePool : List Nat → Option StakePool)
      (dValidatorList : List Nat → Option ValidatorList)
      (dClock : List Nat → Option Clock)
      (s : SoceanStakePoolStakedex) (m : AccountMap),
      (m socean_stake_pool_ID = none ∨
        ∃ acc, m socean_stake_pool_ID = some acc ∧ dStakePool acc.data = none) →
      ∃ e, SoceanStakePoolStakedex.update dStakePool dValidatorList dClock s m =
        (s, .error e) := by
  intro dStakePool dValidatorList dClock s m h
  rcases h with hmiss | ⟨acc, hacc, hparse⟩
  · refine ⟨.accountMissing socean_stake_pool_ID, ?_⟩
    unfold SoceanStakePoolStakedex.update
    rw [hmiss]
  · refine ⟨.deserializeError, ?_⟩
    unfold SoceanStakePoolStakedex.update
    simp only [hacc]
    simp only [hparse]

/-- Witness for the amended C2: an empty account map leaves a concrete
adapter state untouched and yields an error. -/
theorem socean_update_untouched_on_main_account_failure_witness :
    ∃ e, SoceanStakePoolStakedex.update (fun _ => none) (fun _ => none)
        (fun _ => none) ⟨⟨3, 4⟩, ⟨[]⟩, 9⟩ (fun _ => none) =
      (⟨⟨3, 4⟩, ⟨[]⟩, 9⟩, .error e) :=
  socean_update_untouched_on_main_account_failure (fun _ => none) (fun _ => none)
    (fun _ => none) ⟨⟨3, 4⟩, ⟨[]⟩, 9⟩ (fun _ => none) (Or.inl rfl)

/-- C4. Whenever the withdraw quote computation on the SPL stake pool
engine reaches an in-bounds, active validator entry and the fee pipeline
produces a `lamports_out` exceeding that entry's `active_stake_lamports`,
the engine returns the `InvalidState` error and no quote is produced. -/
theorem withdraw_exceeding_active_stake_is_invalid_state :
    ∀ (calc_fee calc_lamports : Nat → Option Nat) (c : RentConsts)
      (s : SplStakePoolStakedex) (validator_index withdraw_amount : Nat)
      (entry : ValidatorStakeInfo) (pool_tokens_fee pool_tokens_burnt
      withdraw_lamports : Nat),
      s.validator_list.validators.get? validator_index = some entry →
      entry.status = StakeStatus.active →
      calc_fee withdraw_amount = some pool_tokens_fee →
      checked_sub withdraw_amount pool_tokens_fee = some pool_tokens_burnt →
      calc_lamports pool_tokens_burnt = some withdraw_lamports →
      entry.active_stake_lamports < withdraw_lamports →
      get_quote_for_validator_copied calc_fee calc_lamports c s validator_index
        withdraw_amount = some (.error .invalidState) := by
  intro calc_fee calc_lamports c s validator_index withdraw_amount entry
    pool_tokens_fee pool_tokens_burnt withdraw_lamports
    hget hstatus hfee hsub hlam hexceeds
  have hne : withdraw_lamports ≠ 0 := by omega
  unfold get_quote_for_validator_copied
  rw [hget]
  simp [hstatus, hfee, hsub, hlam, hne, hexceeds]

/-- Witness for C4: a single active validator with 50 lamports of active
stake, a computed withdrawal of 100 lamports, and the expected
`InvalidState` outcome. -/
theorem withdraw_exceeding_active_stake_is_invalid_state_witness :
    get_quote_for_validator_copied (fun _ => some 1) (fun _ => some 100)
        ⟨100, 10⟩ ⟨0, ⟨0, 0⟩, ⟨[⟨50, 7, .active⟩]⟩, 0⟩ 0 10 =
      some (.error .invalidState) :=
  withdraw_exceeding_active_stake_is_invalid_state (fun _ => some 1)
    (fun _ => some 100) ⟨100, 10⟩ ⟨0, ⟨0, 0⟩, ⟨[⟨50, 7, .active⟩]⟩, 0⟩ 0 10
    ⟨50, 7, .active⟩ 1 9 100 rfl rfl rfl rfl rfl (by decide)

/-- C9. The validator lookup of the withdraw quote engine is partial: for
an index at or beyond the end of the validator list the `.unwrap()` on the
lookup aborts (result `none`), and for every in-bounds index the function
returns some outcome, error or quote. -/
theorem get_quote_for_validator_copied_oob_aborts :
    ∀ (calc_fee calc_lamports : Nat → Option Nat) (c : RentConsts)
      (s : SplStakePoolStakedex) (validator_index withdraw_amount : Nat),
      (s.validator_list.validators.length ≤ validator_index →
        get_quote_for_validator_copied calc_fee calc_lamports c s validator_index
          withdraw_amount = none) ∧
      (validator_index < s.validator_list.validators.length →
        ∃ r, get_quote_for_validator_copied calc_fee calc_lamports c s
          validator_index withdraw_amount = some r) := by
  intro calc_fee calc_lamports c s validator_index withdraw_amount
  constructor
  · intro h
    unfold get_quote_for_validator_copied
    rw [List.get?_eq_none.mpr h]
  · intro h
    unfold get_quote_for_validator_copied
    rw [List.get?_eq_get h]
    exact ⟨_, rfl⟩

/-- Witness for C9: on an adapter with an empty validator list, index 0 is
out of bounds and the call aborts (result `none`). -/
theorem get_quote_for_validator_copied_oob_aborts_witness :
    get_quote_for_validator_copied (fun _ => none) (fun _ => none) ⟨1, 1⟩
        ⟨0, ⟨0, 0⟩, ⟨[]⟩, 0⟩ 0 5 = none :=
  (get_quote_for_validator_copied_oob_aborts (fun _ => none) (fun _ => none)
    ⟨1, 1⟩ ⟨0, ⟨0, 0⟩, ⟨[]⟩, 0⟩ 0 5).1 (by decide)

/-- Counterexample to C5: on a zero-lamport input with a defined zero fee,
default voter and healthy reserves, the deposit quote engine returns a
value equal to the unavailable sentinel although none of the three sentinel
conditions holds — the fee is defined, `tokens_out` (0) does not exceed the
reserves, and the residual reserves stay above the rent-exempt floor — so
"returns the sentinel exactly when (a), (b) or (c)" fails as a
value-level equivalence. -/
theorem deposit_quote_sentinel_not_exact_cx :
    get_deposit_stake_quote_unchecked ⟨2282880, 890880⟩
        ⟨⟨.flat 1 100⟩, ⟨42⟩, 5000000⟩ ⟨0, 0, 0, 0⟩ = DepositStakeQuote.default ∧
    apply_fee (.flat 1 100) 42 5000000 0 = some 0 ∧
    ¬ (5000000 < (0 : Nat) - 0) ∧
    ¬ ((0 : Nat) - 0 < 5000000 ∧
        (5000000 : Nat) - ((0 : Nat) - 0) < 890880) := by
  refine ⟨rfl, rfl, by decide, by decide⟩

/-- C5 (amended). The deposit quote engine returns the unavailable sentinel
value, never an error, exactly when (a) the fee computation is undefined,
(b) `tokens_out` exceeds the reserves, (c) `tokens_out` is strictly below
the reserves and the residual falls below the rent-exempt floor, or the
accepted quote is itself the zero quote (zero `tokens_out`, zero fee,
default voter), which is value-equal to the sentinel; the equality case
`tokens_out = sol_reserves_lamports` is otherwise accepted and yields a
quote. -/
theorem deposit_quote_sentinel_characterization :
    ∀ (c : RentConsts) (s : UnstakeItStakedex) (q : WithdrawStakeQuote),
      get_deposit_stake_quote_unchecked c s q = DepositStakeQuote.default ↔
        (apply_fee s.fee.fee s.pool.incoming_stake s.sol_reserves_lamports
            q.lamports_out = none ∨
          ∃ fee_amount,
            apply_fee s.fee.fee s.pool.incoming_stake s.sol_reserves_lamports
              q.lamports_out = some fee_amount ∧
            (s.sol_reserves_lamports < q.lamports_out - fee_amount ∨
              (q.lamports_out - fee_amount < s.sol_reserves_lamports ∧
                s.sol_reserves_lamports - (q.lamports_out - fee_amount) <
                  c.zero_data_acc_rent_exempt_lamports) ∨
              (q.lamports_out - fee_amount = 0 ∧ fee_amount = 0 ∧
                q.voter = 0))) := by
  intro c s q
  unfold get_deposit_stake_quote_unchecked
  rcases happ : apply_fee s.fee.fee s.pool.incoming_stake s.sol_reserves_lamports
      q.lamports_out with _ | f
  · simp [happ]
  · simp only [happ]
    rcases Nat.lt_trichotomy (q.lamports_out - f) s.sol_reserves_lamports with h | h | h
    · rw [Nat.compare_eq_lt.mpr h]
      by_cases hfloor : s.sol_reserves_lamports - (q.lamports_out - f) <
          c.zero_data_acc_rent_exempt_lamports
      · simp only [if_pos hfloor]
        constructor
        · intro _
          exact Or.inr ⟨f, rfl, Or.inr (Or.inl ⟨h, hfloor⟩)⟩
        · intro _
          trivial
      · simp only [if_neg hfloor]
        constructor
        · intro heq
          have hz : q.lamports_out - f = 0 ∧ f = 0 ∧ q.voter = 0 := by
            simpa [DepositStakeQuote.default, DepositStakeQuote.mk.injEq] using heq
          exact Or.inr ⟨f, rfl, Or.inr (Or.inr hz)⟩
        · intro hr
          rcases hr with h1 | ⟨f', hf', hcases⟩
          · simp at h1
          · have hff : f' = f := by
              simpa using hf'.symm
            subst hff
            rcases hcases with hb | hc | hz
            · omega
            · exact absurd hc.2 hfloor
            · rw [hz.1, hz.2.1, hz.2.2]
              rfl
    · rw [Nat.compare_eq_eq.mpr h]
      constructor
      · intro heq
        have hz : q.lamports_out - f = 0 ∧ f = 0 ∧ q.voter = 0 := by
          simpa [DepositStakeQuote.default, DepositStakeQuote.mk.injEq] using heq
        exact Or.inr ⟨f, rfl, Or.inr (Or.inr hz)⟩
      · intro hr
        rcases hr with h1 | ⟨f', hf', hcases⟩
        · simp at h1
        · have hff : f' = f := by
            simpa using hf'.symm
          subst hff
          rcases hcases with hb | hc | hz
          · omega
          · omega
          · rw [hz.1, hz.2.1, hz.2.2]
            rfl
    · rw [Nat.compare_eq_gt.mpr h]
      constructor
      · intro _
        exact Or.inr ⟨f, rfl, Or.inl h⟩
      · intro _
        rfl

/-- C10. Zero-token deposit quotes can collide with the unavailable
sentinel: the sentinel is the all-zero `DepositStakeQuote::default()`
value (as an unavailable input with an undefined fee shows), and a
zero-lamport input whose fee consumes it entirely, with reserves above the
rent-exempt floor and a default voter, is accepted on the success path yet
returns a quote with `tokens_out = 0` value-equal to that sentinel — none
of the unavailability conditions holds for it. -/
theorem zero_quote_collides_with_sentinel :
    DepositStakeQuote.default =
      { tokens_out := 0, fee_amount := 0, voter := 0 } ∧
    get_deposit_stake_quote_unchecked ⟨100, 10⟩ ⟨⟨.flat 1 0⟩, ⟨7⟩, 1000⟩
        ⟨5, 0, 0, 0⟩ = DepositStakeQuote.default ∧
    get_deposit_stake_quote_unchecked ⟨100, 10⟩ ⟨⟨.flat 3 1000⟩, ⟨7⟩, 1000⟩
        ⟨0, 0, 0, 0⟩ = DepositStakeQuote.default ∧
    apply_fee (.flat 3 1000) 7 1000 0 = some 0 ∧
    ¬ (1000 < (0 : Nat) - 0) ∧
    ¬ ((1000 : Nat) - ((0 : Nat) - 0) < 10) := by
  refine ⟨rfl, rfl, rfl, rfl, by decide, by decide⟩
